import Mathlib

/-!
Verification of the Local IP L2 agent extension
(neutron/agent/l2/extensions/local_ip.py).

The extension keeps a two-table pending-change store
(`local_ip_updates['added']` / `local_ip_updates['deleted']`), each table
mapping a port id to a mapping from local-ip id (the spec's "association id")
to the association record.  Port ids and local-ip ids are opaque in the
source; we model them as natural numbers.  A table is modelled as a total
function `Nat → Nat → Option LocalIPAssociation`; absence of a port key is
modelled as the everywhere-`none` row, matching the spec's stated
equivalence "absence of a port key in either table is equivalent to an
empty mapping for that port (lazy creation)".
-/

namespace LocalIP

/-- Resource-type constant (resources.LOCAL_IP_ASSOCIATION). -/
def LOCAL_IP_ASSOCIATION : String := "LocalIPAssociation"

/-- Event-kind constant (events.CREATED). -/
def CREATED : String := "created"

/-- Event-kind constant (events.UPDATED). -/
def UPDATED : String := "updated"

/-- Event-kind constant (events.DELETED). -/
def DELETED : String := "deleted"

/-- Driver-type constant (ovs_constants.EXTENSION_DRIVER_TYPE). -/
def EXTENSION_DRIVER_TYPE : String := "ovs"

/-- One Local IP association record, as carried by notifications and the
bulk pull.  Fields mirror the attributes the source reads:
`fixed_port_id`, `local_ip_id`, and the local-ip payload (opaque here). -/
structure LocalIPAssociation where
  fixed_port_id : Nat
  local_ip_id : Nat
  local_ip : Nat
deriving DecidableEq, Repr

/-- The store `self.local_ip_updates`: the two tables 'added' and
'deleted', each from port id and local-ip id to the pending record. -/
@[ext]
structure LocalIPUpdates where
  added : Nat → Nat → Option LocalIPAssociation
  deleted : Nat → Nat → Option LocalIPAssociation

/-- The freshly created store
`{'added': defaultdict(dict), 'deleted': defaultdict(dict)}`. -/
def emptyUpdates : LocalIPUpdates :=
  { added := fun _ _ => none, deleted := fun _ _ => none }

/-- The body of the per-record loop of `_handle_notification`:
CREATED/UPDATED upserts into 'added'; DELETED inserts into 'deleted' and
evicts the id from 'added'; any other event kind leaves the store
unchanged. -/
def applyAssoc (s : LocalIPUpdates) (event_type : String)
    (assoc : LocalIPAssociation) : LocalIPUpdates :=
  if event_type = CREATED ∨ event_type = UPDATED then
    { s with added := fun p a =>
        if p = assoc.fixed_port_id ∧ a = assoc.local_ip_id then some assoc
        else s.added p a }
  else if event_type = DELETED then
    { added := fun p a =>
        if p = assoc.fixed_port_id ∧ a = assoc.local_ip_id then none
        else s.added p a,
      deleted := fun p a =>
        if p = assoc.fixed_port_id ∧ a = assoc.local_ip_id then some assoc
        else s.deleted p a }
  else s

/-- `_handle_notification`: on a foreign resource type the whole event is
dropped; otherwise each record of the batch is applied in order and
`_notify_port_updated` is called once per record with the record's port id.
The returned list is the sequence of notified port ids, in call order. -/
def handle_notification (s : LocalIPUpdates) (resource_type : String)
    (local_ip_associations : List LocalIPAssociation) (event_type : String) :
    LocalIPUpdates × List Nat :=
  if resource_type ≠ LOCAL_IP_ASSOCIATION then (s, [])
  else
    local_ip_associations.foldl
      (fun acc assoc =>
        (applyAssoc acc.1 event_type assoc, acc.2 ++ [assoc.fixed_port_id]))
      (s, [])

/-- The pair of per-port mappings returned by
`_pop_local_ip_updates_for_port`. -/
structure PortUpdates where
  added : Nat → Option LocalIPAssociation
  deleted : Nat → Option LocalIPAssociation

/-- `_pop_local_ip_updates_for_port`: pops (returns and removes) the
port's row from both tables; a missing row pops as the empty mapping. -/
def pop_local_ip_updates_for_port (s : LocalIPUpdates) (port_id : Nat) :
    PortUpdates × LocalIPUpdates :=
  (⟨s.added port_id, s.deleted port_id⟩,
   { added := fun p a => if p = port_id then none else s.added p a,
     deleted := fun p a => if p = port_id then none else s.deleted p a })

/-- `delete_port`: drops the port's row from both tables without
returning it. -/
def delete_port (s : LocalIPUpdates) (port_id : Nat) : LocalIPUpdates :=
  { added := fun p a => if p = port_id then none else s.added p a,
    deleted := fun p a => if p = port_id then none else s.deleted p a }

/-- The loop of `_pull_all_local_ip_associations`: every fetched record is
upserted into 'added' under its port id and local-ip id; 'deleted' is not
touched and no port-updated notification is sent. -/
def pull_all_local_ip_associations (assoc_list : List LocalIPAssociation)
    (s : LocalIPUpdates) : LocalIPUpdates :=
  assoc_list.foldl
    (fun s assoc =>
      { s with added := fun p a =>
          if p = assoc.fixed_port_id ∧ a = assoc.local_ip_id then some assoc
          else s.added p a })
    s

/-- The observable side-effect steps of the extension's init method, in
source order: register the RPC consumers, create the store, run the bulk
pull that seeds it. -/
inductive InitStep where
  | registerConsumers
  | createStore
  | bulkPull
deriving DecidableEq, Repr

/-- The step sequence the init method performs under the compatible
driver, in source order. -/
def initSteps : List InitStep :=
  [InitStep.registerConsumers, InitStep.createStore, InitStep.bulkPull]

/-- Result of the extension's init method: the exit code when the process
terminated (sys.exit), the side-effect steps performed, and the store when
it was created. -/
structure InitResult where
  exitCode : Option Nat
  steps : List InitStep
  store : Option LocalIPUpdates

/-- The extension's init method (source name: initialize).  With a driver
type other than OVS it exits the process with code 1 before performing any
step; otherwise it registers the RPC consumers, creates the store and
seeds it with the bulk pull, in that order.  `assoc_list` stands for what
the bulk pull returns. -/
def initialize_ext (driver_type : String)
    (assoc_list : List LocalIPAssociation) : InitResult :=
  if driver_type ≠ EXTENSION_DRIVER_TYPE then
    { exitCode := some 1, steps := [], store := none }
  else
    { exitCode := none, steps := initSteps,
      store := some (pull_all_local_ip_associations assoc_list emptyUpdates) }

/-- Index of a step in a step list. -/
def stepIdx (steps : List InitStep) (st : InitStep) : Nat :=
  steps.findIdx (fun x => x == st)

/-- Applying a sequence of single-record notifications (event kind paired
with its record) through `_handle_notification`, ignoring the notified-port
output. -/
def applyEvents (s : LocalIPUpdates)
    (evs : List (String × LocalIPAssociation)) : LocalIPUpdates :=
  evs.foldl
    (fun s e => (handle_notification s LOCAL_IP_ASSOCIATION [e.2] e.1).1) s

/-- An event of the three recognized kinds whose record carries the given
port id and local-ip id. -/
def validEvent (p a : Nat) (e : String × LocalIPAssociation) : Prop :=
  (e.1 = CREATED ∨ e.1 = UPDATED ∨ e.1 = DELETED) ∧
  e.2.fixed_port_id = p ∧ e.2.local_ip_id = a

/-- The 'added'-cell content a single-pair event sequence leaves behind:
determined by the last event (none after a DELETED, the record after a
CREATED/UPDATED). -/
def specAddedCell (evs : List (String × LocalIPAssociation)) :
    Option LocalIPAssociation :=
  match evs.getLast? with
  | none => none
  | some e => if e.1 = DELETED then none else some e.2

/-- Rightmost element of a list on which `f` fires, mapped through `f`. -/
def lastSat {α β : Type} (f : α → Option β) : List α → Option β
  | [] => none
  | x :: t =>
    match lastSat f t with
    | some b => some b
    | none => f x

/-- The record of the last DELETED event of a sequence, if any. -/
def lastDeleted (evs : List (String × LocalIPAssociation)) :
    Option LocalIPAssociation :=
  lastSat (fun e => if e.1 = DELETED then some e.2 else none) evs

theorem lastSat_eq_none {α β : Type} (f : α → Option β) :
    ∀ (l : List α), lastSat f l = none ↔ ∀ x ∈ l, f x = none := by
  intro l
  induction l with
  | nil => simp [lastSat]
  | cons x t ih =>
    simp only [lastSat]
    cases h : lastSat f t with
    | some b =>
      simp only [List.mem_cons]
      constructor
      · intro hc; exact absurd hc (by simp)
      · intro hall
        exfalso
        have : lastSat f t = none := (ih).mpr (fun y hy => hall y (Or.inr hy))
        rw [h] at this; exact Option.noConfusion this
    | none =>
      rw [h] at ih
      simp only [List.mem_cons]
      constructor
      · intro hfx y hy
        rcases hy with rfl | hy
        · exact hfx
        · exact (ih.mp rfl) y hy
      · intro hall; exact hall x (Or.inl rfl)

theorem lastSat_mem {α β : Type} (f : α → Option β) :
    ∀ (l : List α) (b : β), lastSat f l = some b → ∃ x ∈ l, f x = some b := by
  intro l
  induction l with
  | nil => intro b h; exact absurd h (by simp [lastSat])
  | cons x t ih =>
    intro b h
    simp only [lastSat] at h
    cases ht : lastSat f t with
    | some c =>
      rw [ht] at h
      obtain ⟨y, hy, hfy⟩ := ih c ht
      exact ⟨y, List.mem_cons_of_mem _ hy, by rw [hfy, ← h]⟩
    | none =>
      rw [ht] at h
      exact ⟨x, List.mem_cons_self x t, h⟩

theorem lastSat_unique {α β : Type} (f : α → Option β) :
    ∀ (l : List α) (x : α) (b : β), x ∈ l → f x = some b →
      (∀ y ∈ l, f y ≠ none → f y = some b) → lastSat f l = some b := by
  intro l
  induction l with
  | nil => intro x b hx; exact absurd hx (List.not_mem_nil x)
  | cons z t ih =>
    intro x b hx hfx huniq
    simp only [lastSat]
    cases ht : lastSat f t with
    | some c =>
      obtain ⟨y, hy, hfy⟩ := lastSat_mem f t c ht
      have : f y = some b :=
        huniq y (List.mem_cons_of_mem _ hy) (by rw [hfy]; exact Option.noConfusion)
      rw [hfy] at this
      rw [this]
    | none =>
      rcases List.mem_cons.mp hx with rfl | hx
      · exact hfx
      · exfalso
        have := ((lastSat_eq_none f t).mp ht) x hx
        rw [hfx] at this; exact Option.noConfusion this

/-- Generic cell-projection lemma for a left fold: if every step overwrites
the projected cell with `f e` when `f e` fires and leaves it unchanged
otherwise, the fold's cell is the rightmost firing of `f`, defaulting to
the initial cell. -/
theorem foldl_cell {σ ε β : Type} (step : σ → ε → σ) (π : σ → β)
    (f : ε → Option β) :
    ∀ (l : List ε), (∀ s e, e ∈ l → π (step s e) = (f e).getD (π s)) →
      ∀ s, π (l.foldl step s) = (lastSat f l).getD (π s) := by
  intro l
  induction l with
  | nil => intro _ s; simp [lastSat]
  | cons e t ih =>
    intro h s
    simp only [List.foldl_cons, lastSat]
    rw [ih (fun s x hx => h s x (List.mem_cons_of_mem _ hx)) (step s e)]
    rw [h s e (List.mem_cons_self e t)]
    cases ht : lastSat f t with
    | some b => simp
    | none => cases hfe : f e <;> simp

theorem handle_single (s : LocalIPUpdates) (event_type : String)
    (assoc : LocalIPAssociation) :
    handle_notification s LOCAL_IP_ASSOCIATION [assoc] event_type =
      (applyAssoc s event_type assoc, [assoc.fixed_port_id]) := by
  simp [handle_notification]

theorem applyAssoc_deleted (s : LocalIPUpdates) (assoc : LocalIPAssociation) :
    applyAssoc s DELETED assoc =
      { added := fun p a =>
          if p = assoc.fixed_port_id ∧ a = assoc.local_ip_id then none
          else s.added p a,
        deleted := fun p a =>
          if p = assoc.fixed_port_id ∧ a = assoc.local_ip_id then some assoc
          else s.deleted p a } := by
  simp [applyAssoc, CREATED, UPDATED, DELETED]

theorem applyAssoc_upsert (s : LocalIPUpdates) (event_type : String)
    (h : event_type = CREATED ∨ event_type = UPDATED)
    (assoc : LocalIPAssociation) :
    applyAssoc s event_type assoc =
      { s with added := fun p a =>
          if p = assoc.fixed_port_id ∧ a = assoc.local_ip_id then some assoc
          else s.added p a } := by
  rcases h with rfl | rfl <;> simp [applyAssoc, CREATED, UPDATED, DELETED]

theorem applyAssoc_unknown (s : LocalIPUpdates) (event_type : String)
    (assoc : LocalIPAssociation) (h1 : event_type ≠ CREATED)
    (h2 : event_type ≠ UPDATED) (h3 : event_type ≠ DELETED) :
    applyAssoc s event_type assoc = s := by
  simp [applyAssoc, h1, h2, h3]

/-- Claim C3: `_pop_local_ip_updates_for_port` returns the full 'added'
and 'deleted' rows of the port, leaves the port's row empty in both
tables (the operation is a total function, so it never fails, and an
untouched port yields empty rows), and a second drain with no intervening
mutation returns empty rows. -/
theorem C3_drain_port (s : LocalIPUpdates) (port_id : Nat) :
    (pop_local_ip_updates_for_port s port_id).1.added = s.added port_id ∧
    (pop_local_ip_updates_for_port s port_id).1.deleted = s.deleted port_id ∧
    (∀ a, (pop_local_ip_updates_for_port s port_id).2.added port_id a = none) ∧
    (∀ a, (pop_local_ip_updates_for_port s port_id).2.deleted port_id a = none) ∧
    (pop_local_ip_updates_for_port
        (pop_local_ip_updates_for_port s port_id).2 port_id).1.added =
      (fun _ => none) ∧
    (pop_local_ip_updates_for_port
        (pop_local_ip_updates_for_port s port_id).2 port_id).1.deleted =
      (fun _ => none) := by
  refine ⟨rfl, rfl, fun a => ?_, fun a => ?_,
    funext fun a => ?_, funext fun a => ?_⟩ <;>
    simp [pop_local_ip_updates_for_port]

/-- Claim C4: handling a DELETED record inserts the record at
deleted[port][id] and evicts the id from added[port] (a no-op eviction
when the id was never added, the record still landing in 'deleted'), and
handling the same DELETED record twice yields the same store as once. -/
theorem C4_mark_deleted (s : LocalIPUpdates) (assoc : LocalIPAssociation) :
    ((handle_notification s LOCAL_IP_ASSOCIATION [assoc] DELETED).1.deleted
        assoc.fixed_port_id assoc.local_ip_id = some assoc) ∧
    ((handle_notification s LOCAL_IP_ASSOCIATION [assoc] DELETED).1.added
        assoc.fixed_port_id assoc.local_ip_id = none) ∧
    ((handle_notification
        (handle_notification s LOCAL_IP_ASSOCIATION [assoc] DELETED).1
        LOCAL_IP_ASSOCIATION [assoc] DELETED).1 =
      (handle_notification s LOCAL_IP_ASSOCIATION [assoc] DELETED).1) := by
  refine ⟨?_, ?_, ?_⟩
  · rw [handle_single]; simp [applyAssoc_deleted]
  · rw [handle_single]; simp [applyAssoc_deleted]
  · rw [handle_single, handle_single]
    simp only [applyAssoc_deleted]
    ext p a <;>
      by_cases hpa : p = assoc.fixed_port_id ∧ a = assoc.local_ip_id <;>
      simp [hpa]

/-- Claim C5: `delete_port` empties the port's row in both tables
whatever the prior store contents (total, so it cannot fail on an absent
port), and a drain right after returns empty rows. -/
theorem C5_delete_port (s : LocalIPUpdates) (port_id : Nat) :
    (∀ a, (delete_port s port_id).added port_id a = none) ∧
    (∀ a, (delete_port s port_id).deleted port_id a = none) ∧
    (pop_local_ip_updates_for_port (delete_port s port_id) port_id).1.added =
      (fun _ => none) ∧
    (pop_local_ip_updates_for_port (delete_port s port_id) port_id).1.deleted =
      (fun _ => none) := by
  refine ⟨fun a => ?_, fun a => ?_, funext fun a => ?_, funext fun a => ?_⟩ <;>
    simp [delete_port, pop_local_ip_updates_for_port]

/-- Claim C7: a notification bearing a foreign resource-type tag is
dropped whole: the store is unchanged and no port-updated notification
is sent for any record of the batch. -/
theorem C7_foreign_resource_type (s : LocalIPUpdates) (resource_type : String)
    (assocs : List LocalIPAssociation) (event_type : String)
    (h : resource_type ≠ LOCAL_IP_ASSOCIATION) :
    handle_notification s resource_type assocs event_type = (s, []) := by
  simp [handle_notification, h]

/-- Witness for C7 at a concrete foreign resource type. -/
theorem C7_foreign_resource_type_witness :
    ("Port" ≠ LOCAL_IP_ASSOCIATION) ∧
    handle_notification emptyUpdates "Port" [⟨0, 0, 1⟩] CREATED =
      (emptyUpdates, []) :=
  ⟨by decide,
   C7_foreign_resource_type emptyUpdates "Port" [⟨0, 0, 1⟩] CREATED (by decide)⟩

/-- Claim C8: a recognized-type batch with an unrecognized event kind
changes neither table for any record, yet the port-updated notification
is still sent once per record, with that record's port id. -/
theorem C8_unknown_event_kind (s : LocalIPUpdates)
    (assocs : List LocalIPAssociation) (event_type : String)
    (h1 : event_type ≠ CREATED) (h2 : event_type ≠ UPDATED)
    (h3 : event_type ≠ DELETED) :
    handle_notification s LOCAL_IP_ASSOCIATION assocs event_type =
      (s, assocs.map (fun a => a.fixed_port_id)) := by
  have key : ∀ (l : List LocalIPAssociation) (acc : LocalIPUpdates × List Nat),
      l.foldl (fun acc assoc =>
        (applyAssoc acc.1 event_type assoc, acc.2 ++ [assoc.fixed_port_id]))
        acc = (acc.1, acc.2 ++ l.map (fun a => a.fixed_port_id)) := by
    intro l
    induction l with
    | nil => intro acc; simp
    | cons a t ih =>
      intro acc
      simp only [List.foldl_cons, List.map_cons]
      rw [applyAssoc_unknown _ _ _ h1 h2 h3, ih]
      simp
  simp only [handle_notification]
  rw [if_neg (by simp), key]
  simp

/-- Witness for C8 at a concrete unknown event kind and two records. -/
theorem C8_unknown_event_kind_witness :
    (("destroyed" : String) ≠ CREATED ∧ ("destroyed" : String) ≠ UPDATED ∧
      ("destroyed" : String) ≠ DELETED) ∧
    handle_notification emptyUpdates LOCAL_IP_ASSOCIATION
        [⟨3, 4, 5⟩, ⟨6, 7, 8⟩] "destroyed" = (emptyUpdates, [3, 6]) :=
  ⟨by refine ⟨by decide, by decide, by decide⟩, by
    have h := C8_unknown_event_kind emptyUpdates [⟨3, 4, 5⟩, ⟨6, 7, 8⟩]
      "destroyed" (by decide) (by decide) (by decide)
    simpa using h⟩

/-- Claim C9: draining port `p` neither returns nor removes another
port's entries: the drained result is exactly port `p`'s rows, and any
distinct port's rows are unchanged in the store. -/
theorem C9_drain_isolation (s : LocalIPUpdates) (p q : Nat) (h : q ≠ p) :
    (pop_local_ip_updates_for_port s p).1.added = s.added p ∧
    (pop_local_ip_updates_for_port s p).1.deleted = s.deleted p ∧
    (pop_local_ip_updates_for_port s p).2.added q = s.added q ∧
    (pop_local_ip_updates_for_port s p).2.deleted q = s.deleted q := by
  refine ⟨rfl, rfl, funext fun a => ?_, funext fun a => ?_⟩ <;>
    simp [pop_local_ip_updates_for_port, h]

/-- Witness for C9: drain port 1 of a store holding a pending CREATE for
port 2; port 2's 'added' row is untouched. -/
theorem C9_drain_isolation_witness :
    ((2 : Nat) ≠ 1) ∧
    (pop_local_ip_updates_for_port
        (applyAssoc emptyUpdates CREATED ⟨2, 5, 9⟩) 1).2.added 2 =
      (applyAssoc emptyUpdates CREATED ⟨2, 5, 9⟩).added 2 :=
  ⟨by decide,
   (C9_drain_isolation (applyAssoc emptyUpdates CREATED ⟨2, 5, 9⟩) 1 2
      (by decide)).2.2.1⟩

/-- Claim C10: under an incompatible driver type the init method exits
the process with code 1 having performed no initialization step: no
consumer registration, no store creation, no bulk pull. -/
theorem C10_wrong_driver (driver_type : String)
    (assoc_list : List LocalIPAssociation)
    (h : driver_type ≠ EXTENSION_DRIVER_TYPE) :
    initialize_ext driver_type assoc_list =
      { exitCode := some 1, steps := [], store := none } := by
  simp [initialize_ext, h]

/-- Witness for C10 at a concrete incompatible driver type. -/
theorem C10_wrong_driver_witness :
    (("linuxbridge" : String) ≠ EXTENSION_DRIVER_TYPE) ∧
    initialize_ext "linuxbridge" [] =
      { exitCode := some 1, steps := [], store := none } :=
  ⟨by decide, C10_wrong_driver "linuxbridge" [] (by decide)⟩

/-- Claim C2 counterexample: with the compatible driver the init method
registers the notification consumers strictly before the bulk-pull seed
step, so the seed does not precede the subscribe step. -/
theorem C2_counterexample :
    initialize_ext EXTENSION_DRIVER_TYPE [] =
      { exitCode := none, steps := initSteps, store := some emptyUpdates } ∧
    stepIdx initSteps InitStep.registerConsumers <
      stepIdx initSteps InitStep.bulkPull := by
  constructor
  · simp [initialize_ext, pull_all_local_ip_associations]
  · decide

/-- Claim C2 (amended): whenever the init method completes without
exiting, its step sequence registers the notification consumers first and
runs the bulk-pull seed last (subscribe-then-seed, the reverse of the
claimed order); the seed is still performed within the init method, so it
completes before any notification or port-processing call is handled. -/
theorem C2_register_before_seed (driver_type : String)
    (assoc_list : List LocalIPAssociation)
    (h : (initialize_ext driver_type assoc_list).exitCode = none) :
    stepIdx (initialize_ext driver_type assoc_list).steps
        InitStep.registerConsumers <
      stepIdx (initialize_ext driver_type assoc_list).steps
        InitStep.bulkPull ∧
    InitStep.bulkPull ∈ (initialize_ext driver_type assoc_list).steps ∧
    (initialize_ext driver_type assoc_list).store =
      some (pull_all_local_ip_associations assoc_list emptyUpdates) := by
  by_cases hd : driver_type ≠ EXTENSION_DRIVER_TYPE
  · exfalso; simp [initialize_ext, hd] at h
  · simp only [initialize_ext]
    rw [if_neg hd]
    refine ⟨?_, ?_, rfl⟩
    · show stepIdx initSteps InitStep.registerConsumers <
        stepIdx initSteps InitStep.bulkPull
      decide
    · show InitStep.bulkPull ∈ initSteps
      decide

/-- Witness for C2 (amended) at the compatible driver and empty pull. -/
theorem C2_register_before_seed_witness :
    ((initialize_ext EXTENSION_DRIVER_TYPE []).exitCode = none) ∧
    (stepIdx (initialize_ext EXTENSION_DRIVER_TYPE []).steps
        InitStep.registerConsumers <
      stepIdx (initialize_ext EXTENSION_DRIVER_TYPE []).steps
        InitStep.bulkPull ∧
    InitStep.bulkPull ∈ (initialize_ext EXTENSION_DRIVER_TYPE []).steps ∧
    (initialize_ext EXTENSION_DRIVER_TYPE []).store =
      some (pull_all_local_ip_associations [] emptyUpdates)) :=
  ⟨by decide, C2_register_before_seed EXTENSION_DRIVER_TYPE [] (by decide)⟩

/-- Claim C1 counterexample: for the single pair (port 0, id 0), the
sequence DELETED then CREATED leaves the id present in both 'added' and
'deleted' although the most recent event is CREATED: the CREATED upsert
does not evict the id from 'deleted'. -/
theorem C1_counterexample :
    (applyEvents emptyUpdates
        [(DELETED, ⟨0, 0, 5⟩), (CREATED, ⟨0, 0, 5⟩)]).added 0 0 =
      some ⟨0, 0, 5⟩ ∧
    (applyEvents emptyUpdates
        [(DELETED, ⟨0, 0, 5⟩), (CREATED, ⟨0, 0, 5⟩)]).deleted 0 0 =
      some ⟨0, 0, 5⟩ := by
  constructor <;> decide

/-- Effect of one recognized-kind event on the single pair's 'added'
cell: an overwrite with `none` for DELETED, with the record for
CREATED/UPDATED, no effect otherwise. -/
def addCellEffect (e : String × LocalIPAssociation) :
    Option (Option LocalIPAssociation) :=
  if e.1 = DELETED then some none
  else if e.1 = CREATED ∨ e.1 = UPDATED then some (some e.2) else none

/-- Effect of one event on the single pair's 'deleted' cell: an overwrite
with the record for DELETED, no effect otherwise. -/
def delCellEffect (e : String × LocalIPAssociation) :
    Option (Option LocalIPAssociation) :=
  if e.1 = DELETED then some (some e.2) else none

theorem lastSat_cons_some {α β : Type} (f : α → Option β) (x : α)
    (t : List α) (b : β) (h : lastSat f t = some b) :
    lastSat f (x :: t) = some b := by
  simp only [lastSat]
  rw [h]

theorem lastSat_map {α β γ : Type} (g : α → Option β) (h : β → γ) :
    ∀ (l : List α),
      lastSat (fun x => (g x).map h) l = (lastSat g l).map h := by
  intro l
  induction l with
  | nil => simp [lastSat]
  | cons x t ih =>
    simp only [lastSat, ih]
    cases ht : lastSat g t with
    | some b => simp
    | none => simp

theorem step_added_cell (p a : Nat) (s : LocalIPUpdates)
    (e : String × LocalIPAssociation) (hv : validEvent p a e) :
    ((handle_notification s LOCAL_IP_ASSOCIATION [e.2] e.1).1).added p a =
      (addCellEffect e).getD (s.added p a) := by
  obtain ⟨hkind, hp, ha⟩ := hv
  rw [handle_single]
  rcases hkind with hk | hk | hk <;>
    simp [applyAssoc, addCellEffect, CREATED, UPDATED, DELETED, hp, ha, hk]

theorem step_deleted_cell (p a : Nat) (s : LocalIPUpdates)
    (e : String × LocalIPAssociation) (hv : validEvent p a e) :
    ((handle_notification s LOCAL_IP_ASSOCIATION [e.2] e.1).1).deleted p a =
      (delCellEffect e).getD (s.deleted p a) := by
  obtain ⟨hkind, hp, ha⟩ := hv
  rw [handle_single]
  rcases hkind with hk | hk | hk <;>
    simp [applyAssoc, delCellEffect, CREATED, UPDATED, DELETED, hp, ha, hk]

theorem applyEvents_added_cell (p a : Nat)
    (evs : List (String × LocalIPAssociation))
    (hv : ∀ e ∈ evs, validEvent p a e) (s : LocalIPUpdates) :
    (applyEvents s evs).added p a =
      (lastSat addCellEffect evs).getD (s.added p a) := by
  have h := foldl_cell
    (fun s e => (handle_notification s LOCAL_IP_ASSOCIATION [e.2] e.1).1)
    (fun s => s.added p a) addCellEffect evs
    (fun s e he => step_added_cell p a s e (hv e he)) s
  simpa [applyEvents] using h

theorem applyEvents_deleted_cell (p a : Nat)
    (evs : List (String × LocalIPAssociation))
    (hv : ∀ e ∈ evs, validEvent p a e) (s : LocalIPUpdates) :
    (applyEvents s evs).deleted p a =
      (lastSat delCellEffect evs).getD (s.deleted p a) := by
  have h := foldl_cell
    (fun s e => (handle_notification s LOCAL_IP_ASSOCIATION [e.2] e.1).1)
    (fun s => s.deleted p a) delCellEffect evs
    (fun s e he => step_deleted_cell p a s e (hv e he)) s
  simpa [applyEvents] using h

theorem lastSat_delCellEffect (evs : List (String × LocalIPAssociation)) :
    lastSat delCellEffect evs = (lastDeleted evs).map some := by
  rw [lastDeleted, ← lastSat_map]
  have hfun : delCellEffect =
      fun e => ((fun e : String × LocalIPAssociation =>
        if e.1 = DELETED then some e.2 else none) e).map some := by
    funext e
    by_cases hd : e.1 = DELETED <;> simp [delCellEffect, hd]
  rw [hfun]

theorem lastSat_addCellEffect_spec (p a : Nat) :
    ∀ (evs : List (String × LocalIPAssociation)),
      (∀ e ∈ evs, validEvent p a e) →
      (lastSat addCellEffect evs).getD none = specAddedCell evs := by
  intro evs
  induction evs with
  | nil => intro _; simp [lastSat, specAddedCell]
  | cons e t ih =>
    intro hv
    cases t with
    | nil =>
      obtain ⟨hkind, -, -⟩ := hv e (List.mem_cons_self e [])
      rcases hkind with hk | hk | hk <;>
        simp [lastSat, specAddedCell, addCellEffect, hk,
          CREATED, UPDATED, DELETED]
    | cons x t2 =>
      have hvt : ∀ y ∈ x :: t2, validEvent p a y :=
        fun y hy => hv y (List.mem_cons_of_mem _ hy)
      have hne : lastSat addCellEffect (x :: t2) ≠ none := by
        intro h0
        have hx := (lastSat_eq_none addCellEffect (x :: t2)).mp h0 x
          (List.mem_cons_self x t2)
        obtain ⟨hkind, -, -⟩ := hvt x (List.mem_cons_self x t2)
        rcases hkind with hk | hk | hk <;>
          simp [addCellEffect, hk, CREATED, UPDATED, DELETED] at hx
      have hspec : specAddedCell (e :: x :: t2) = specAddedCell (x :: t2) := by
        simp [specAddedCell, List.getLast?_cons_cons]
      rw [hspec]
      have hih := ih hvt
      cases hls : lastSat addCellEffect (x :: t2) with
      | none => exact absurd hls hne
      | some v =>
        rw [hls] at hih
        rw [lastSat_cons_some addCellEffect e (x :: t2) v hls]
        simpa using hih

theorem lastDeleted_isSome (evs : List (String × LocalIPAssociation)) :
    (lastDeleted evs).isSome ↔ ∃ e ∈ evs, e.1 = DELETED := by
  rw [lastDeleted]
  constructor
  · intro h
    obtain ⟨v, hv⟩ := Option.isSome_iff_exists.mp h
    obtain ⟨x, hx, hfx⟩ := lastSat_mem _ evs v hv
    refine ⟨x, hx, ?_⟩
    by_contra hne
    simp [hne] at hfx
  · rintro ⟨x, hx, hdx⟩
    rw [Option.isSome_iff_ne_none]
    intro h0
    have hx0 := (lastSat_eq_none _ evs).mp h0 x hx
    simp [hdx] at hx0

/-- Claim C1 (amended): for any sequence of recognized-kind notifications
for a single (port, id) pair applied through `_handle_notification` from
the fresh store, the 'added' cell is determined by the last event (empty
after a DELETED, holding the last record otherwise), while the 'deleted'
cell holds the record of the most recent DELETED event if any DELETED
ever occurred.  Hence the id sits in 'deleted' iff some DELETED occurred
— not iff the most recent event was DELETED — and it can sit in both
tables at once (CREATED/UPDATED after DELETED does not evict 'deleted').
Applied after every prefix, this characterizes each completed
reduction. -/
theorem C1_single_pair_reduction (p a : Nat)
    (evs : List (String × LocalIPAssociation))
    (hv : ∀ e ∈ evs, validEvent p a e) :
    (applyEvents emptyUpdates evs).added p a = specAddedCell evs ∧
    (applyEvents emptyUpdates evs).deleted p a = lastDeleted evs ∧
    (((applyEvents emptyUpdates evs).deleted p a).isSome ↔
      ∃ e ∈ evs, e.1 = DELETED) := by
  have hadd := applyEvents_added_cell p a evs hv emptyUpdates
  have hdel := applyEvents_deleted_cell p a evs hv emptyUpdates
  have hdel2 : (applyEvents emptyUpdates evs).deleted p a = lastDeleted evs := by
    rw [hdel, lastSat_delCellEffect]
    cases lastDeleted evs <;> simp [emptyUpdates]
  refine ⟨?_, hdel2, ?_⟩
  · rw [hadd]
    have := lastSat_addCellEffect_spec p a evs hv
    simpa [emptyUpdates] using this
  · rw [hdel2]
    exact lastDeleted_isSome evs

/-- Witness for C1 (amended): CREATED then DELETED for pair (1, 2). -/
theorem C1_single_pair_reduction_witness :
    (∀ e ∈ [((CREATED, ⟨1, 2, 3⟩) : String × LocalIPAssociation),
        (DELETED, ⟨1, 2, 4⟩)], validEvent 1 2 e) ∧
    ((applyEvents emptyUpdates
        [(CREATED, ⟨1, 2, 3⟩), (DELETED, ⟨1, 2, 4⟩)]).added 1 2 =
      specAddedCell [(CREATED, ⟨1, 2, 3⟩), (DELETED, ⟨1, 2, 4⟩)] ∧
    (applyEvents emptyUpdates
        [(CREATED, ⟨1, 2, 3⟩), (DELETED, ⟨1, 2, 4⟩)]).deleted 1 2 =
      lastDeleted [(CREATED, ⟨1, 2, 3⟩), (DELETED, ⟨1, 2, 4⟩)] ∧
    (((applyEvents emptyUpdates
        [(CREATED, ⟨1, 2, 3⟩), (DELETED, ⟨1, 2, 4⟩)]).deleted 1 2).isSome ↔
      ∃ e ∈ [((CREATED, ⟨1, 2, 3⟩) : String × LocalIPAssociation),
        (DELETED, ⟨1, 2, 4⟩)], e.1 = DELETED)) := by
  have hv : ∀ e ∈ [((CREATED, ⟨1, 2, 3⟩) : String × LocalIPAssociation),
      (DELETED, ⟨1, 2, 4⟩)], validEvent 1 2 e := by
    intro e he
    simp only [List.mem_cons, List.not_mem_nil, or_false] at he
    rcases he with rfl | rfl
    · exact ⟨Or.inl rfl, rfl, rfl⟩
    · exact ⟨Or.inr (Or.inr rfl), rfl, rfl⟩
  exact ⟨hv, C1_single_pair_reduction 1 2 _ hv⟩

/-- Effect of one bulk-pull record on the (p, a) 'added' cell: an
overwrite with the record when the keys match, no effect otherwise. -/
def keyEffect (p a : Nat) (r : LocalIPAssociation) :
    Option (Option LocalIPAssociation) :=
  if p = r.fixed_port_id ∧ a = r.local_ip_id then some (some r) else none

theorem pull_all_added_cell (p a : Nat) (l : List LocalIPAssociation)
    (s : LocalIPUpdates) :
    (pull_all_local_ip_associations l s).added p a =
      (lastSat (keyEffect p a) l).getD (s.added p a) := by
  have h := foldl_cell
    (fun s assoc =>
      ({ s with added := fun p' a' =>
          if p' = assoc.fixed_port_id ∧ a' = assoc.local_ip_id then some assoc
          else s.added p' a' } : LocalIPUpdates))
    (fun s => s.added p a) (keyEffect p a) l
    (fun s r _ => by
      by_cases hc : p = r.fixed_port_id ∧ a = r.local_ip_id <;>
        simp [keyEffect, hc]) s
  simpa [pull_all_local_ip_associations] using h

theorem pull_all_deleted (l : List LocalIPAssociation) :
    ∀ (s : LocalIPUpdates),
      (pull_all_local_ip_associations l s).deleted = s.deleted := by
  induction l with
  | nil => intro s; rfl
  | cons r t ih =>
    intro s
    simp only [pull_all_local_ip_associations, List.foldl_cons] at *
    exact ih _

/-- Claim C6: seeding the fresh store from a bulk pull of records with
pairwise-distinct (port, local-ip id) keys — N distinct associations —
puts exactly those records in 'added': each record retrievable under its
port and id, every non-empty cell accounted for by some pulled record,
'deleted' untouched (empty), and the set of non-empty port rows equal to
the set of ports of the pulled records (K distinct ports yields exactly K
port keys). -/
theorem C6_bootstrap_seed (l : List LocalIPAssociation)
    (hkeys : l.Pairwise (fun r r' => r.fixed_port_id ≠ r'.fixed_port_id ∨
      r.local_ip_id ≠ r'.local_ip_id)) :
    (∀ r ∈ l, (pull_all_local_ip_associations l emptyUpdates).added
        r.fixed_port_id r.local_ip_id = some r) ∧
    (∀ p a r, (pull_all_local_ip_associations l emptyUpdates).added p a =
        some r → r ∈ l ∧ r.fixed_port_id = p ∧ r.local_ip_id = a) ∧
    (∀ p a, (pull_all_local_ip_associations l emptyUpdates).deleted p a =
        none) ∧
    (∀ p, (∃ a, ((pull_all_local_ip_associations l emptyUpdates).added p a
        ).isSome) ↔ p ∈ l.map (fun r => r.fixed_port_id)) := by
  have hsym : Symmetric (fun (r r' : LocalIPAssociation) =>
      r.fixed_port_id ≠ r'.fixed_port_id ∨ r.local_ip_id ≠ r'.local_ip_id) :=
    fun r r' h => h.imp Ne.symm Ne.symm
  have huniq : ∀ r ∈ l, ∀ y ∈ l,
      keyEffect r.fixed_port_id r.local_ip_id y ≠ none →
      keyEffect r.fixed_port_id r.local_ip_id y = some (some r) := by
    intro r hr y hy hne
    by_cases hc : r.fixed_port_id = y.fixed_port_id ∧
        r.local_ip_id = y.local_ip_id
    · have hyr : y = r := by
        by_contra hne2
        rcases hkeys.forall hsym hy hr hne2 with h | h
        · exact h hc.1.symm
        · exact h hc.2.symm
      subst hyr
      simp [keyEffect, hc]
    · exact absurd (by simp [keyEffect, hc]) hne
  have h1 : ∀ r ∈ l, (pull_all_local_ip_associations l emptyUpdates).added
      r.fixed_port_id r.local_ip_id = some r := by
    intro r hr
    rw [pull_all_added_cell,
      lastSat_unique (keyEffect r.fixed_port_id r.local_ip_id) l r (some r)
        hr (by simp [keyEffect]) (huniq r hr)]
    rfl
  have h2 : ∀ p a r,
      (pull_all_local_ip_associations l emptyUpdates).added p a = some r →
      r ∈ l ∧ r.fixed_port_id = p ∧ r.local_ip_id = a := by
    intro p a r h
    rw [pull_all_added_cell] at h
    cases hls : lastSat (keyEffect p a) l with
    | none => rw [hls] at h; exact absurd h (by simp [emptyUpdates])
    | some v =>
      rw [hls] at h
      simp only [Option.getD_some] at h
      subst h
      obtain ⟨x, hx, hfx⟩ := lastSat_mem _ l (some r) hls
      simp only [keyEffect] at hfx
      by_cases hc : p = x.fixed_port_id ∧ a = x.local_ip_id
      · rw [if_pos hc] at hfx
        injection hfx with hfx2
        injection hfx2 with hxr
        subst hxr
        exact ⟨hx, hc.1.symm, hc.2.symm⟩
      · rw [if_neg hc] at hfx
        exact absurd hfx (by simp)
  have h3 : ∀ p a,
      (pull_all_local_ip_associations l emptyUpdates).deleted p a = none := by
    intro p a
    rw [pull_all_deleted l emptyUpdates]
    rfl
  refine ⟨h1, h2, h3, fun p => ⟨?_, ?_⟩⟩
  · rintro ⟨a, hsome⟩
    obtain ⟨r, hr⟩ := Option.isSome_iff_exists.mp hsome
    obtain ⟨hmem, hport, -⟩ := h2 p a r hr
    exact List.mem_map.mpr ⟨r, hmem, hport⟩
  · intro hp
    obtain ⟨r, hr, hport⟩ := List.mem_map.mp hp
    refine ⟨r.local_ip_id, ?_⟩
    have hcell := h1 r hr
    rw [hport] at hcell
    simp [hcell]

/-- Witness for C6 at two records on two distinct ports. -/
theorem C6_bootstrap_seed_witness :
    (([⟨0, 0, 1⟩, ⟨1, 2, 3⟩] : List LocalIPAssociation).Pairwise
      (fun r r' => r.fixed_port_id ≠ r'.fixed_port_id ∨
        r.local_ip_id ≠ r'.local_ip_id)) ∧
    (pull_all_local_ip_associations [⟨0, 0, 1⟩, ⟨1, 2, 3⟩]
        emptyUpdates).added 0 0 = some ⟨0, 0, 1⟩ ∧
    (pull_all_local_ip_associations [⟨0, 0, 1⟩, ⟨1, 2, 3⟩]
        emptyUpdates).deleted 1 2 = none :=
  ⟨by decide,
   (C6_bootstrap_seed [⟨0, 0, 1⟩, ⟨1, 2, 3⟩] (by decide)).1 ⟨0, 0, 1⟩
     (List.mem_cons_self _ _),
   (C6_bootstrap_seed [⟨0, 0, 1⟩, ⟨1, 2, 3⟩] (by decide)).2.2.1 1 2⟩
